import Mathlib

/-!
Verification of the sleep_physionet dataset fetchers (the age and the
temazepam catalog) of this repository.  The development embeds, from the
sources: the verified-fetch primitive (from sleep_physionet_age.py), the
subject loops of both catalog fetch_data entry points, the temazepam
batch validation, and the path resolver.  The transport collaborator, the
_get_path helper and the generated catalog tables are absent from the
sources and are modelled from the specification where needed; every such
definition says so in its doc comment.
-/

namespace SleepPhysionet

/-- Base URL of the remote host, the BASE_URL constant of the source. -/
def BASE_URL : String := "https://physionet.org/pn4/sleep-edfx/"

/-- POSIX os.path.join for the single-component joins the code performs. -/
def joinPath (a b : String) : String := a ++ "/" ++ b

/-- os.path.dirname: everything before the final path separator, the
empty string when there is none. -/
def dirname (p : String) : String :=
  String.mk (((p.data.reverse.dropWhile (fun c => c != '/')).drop 1).reverse)

/-- Filesystem state: the existing regular files and the existing directories. -/
structure FS where
  files : List String
  dirs : List String
deriving DecidableEq, Repr

/-- os.path.isfile. -/
def isfile (fs : FS) (p : String) : Bool := decide (p ∈ fs.files)

/-- os.path.isdir. -/
def isdir (fs : FS) (p : String) : Bool := decide (p ∈ fs.dirs)

/-- One transport invocation, recording url, destination and expected sha1. -/
structure TransportCall where
  url : String
  dest : String
  hash : String
deriving DecidableEq, Repr

/-- Errors raised by the embedded code paths.  assertionError is a bare
assert failure and carries no message; unpackError expected got is the
ValueError raised when unpacking got values into expected names;
runtimeError carries the formatted message string; downloadError url dest
is a transport failure propagated from the download helper. -/
inductive PyErr where
  | assertionError : PyErr
  | unpackError : Nat → Nat → PyErr
  | runtimeError : String → PyErr
  | downloadError : String → String → PyErr
deriving DecidableEq, Repr

/-- Execution state threaded through the fetchers: the filesystem plus the
ordered trace of transport calls issued so far. -/
structure St where
  fs : FS
  calls : List TransportCall
deriving DecidableEq, Repr

/-- Decidable equality of fetch results, so concrete runs can be checked
by evaluation. -/
instance {e a : Type} [DecidableEq e] [DecidableEq a] : DecidableEq (Except e a)
  | .error x, .error y =>
    if h : x = y then .isTrue (by rw [h]) else .isFalse (by simp [h])
  | .error _, .ok _ => .isFalse (by simp)
  | .ok _, .error _ => .isFalse (by simp)
  | .ok x, .ok y =>
    if h : x = y then .isTrue (by rw [h]) else .isFalse (by simp [h])

/-- The stale-copy removal step of the fetch primitive:
remove the destination when a file already exists there. -/
def removeStale (fs : FS) (d : String) : FS :=
  if isfile fs d then ⟨fs.files.filter (fun x => x != d), fs.dirs⟩ else fs

/-- The directory step of the fetch primitive: create the parent directory
when it does not exist yet. -/
def ensureDir (fs : FS) (dir : String) : FS :=
  if isdir fs dir then fs else ⟨fs.files, dir :: fs.dirs⟩

/-- The verified-fetch primitive, embedding _fetch_one of
sleep_physionet_age.py (the temazepam module imports the identical
primitive from the _utils module, which is absent from the sources).
The transport collaborator is modelled from the spec contract of section
4.2 and 6: net url tells whether the download, including the sha1 check,
succeeds; on success the destination file exists with verified content,
on failure the transport raises and leaves no file at the destination. -/
def fetchOne (net : String → Bool) (fname hashsum path : String) (forceUpdate : Bool)
    (st : St) : Except (PyErr × St) (String × St) :=
  let url := BASE_URL ++ "/" ++ fname
  let destination := joinPath path fname
  if !(isfile st.fs destination) || forceUpdate then
    let fs2 := ensureDir (removeStale st.fs destination) (dirname destination)
    let calls2 := st.calls ++ [⟨url, destination, hashsum⟩]
    if net url then
      .ok (destination, ⟨⟨destination :: fs2.files, fs2.dirs⟩, calls2⟩)
    else
      .error (.downloadError url destination, ⟨fs2, calls2⟩)
  else
    .ok (destination, st)

/-- Modelled from the spec: the _get_path helper imported by data_path is
absent from the sources.  Spec section 4.1: use the explicit caller
supplied path when given; else the named setting; else the fixed default
directory under the user home location.  The persist and prompt side
effects are not observable by any claim and are not modelled. -/
def getPath (explicitPath : Option String) (setting : Option String) : String :=
  match explicitPath with
  | some p => p
  | none =>
    match setting with
    | some p => p
    | none => "~/mne_data"

/-- data_path of sleep_physionet_age.py: resolve the cache root through
_get_path and append the fixed dataset directory.  The temazepam module
exposes the resolver of the absent _utils module, modelled identically
per spec section 4.1. -/
def data_path (path : Option String) (setting : Option String) : String :=
  joinPath (getPath path setting) "physionet-sleep-data"

/-- One row of the age catalog table (the generated records file, absent
from the sources): combo index, remote filename, sha1 checksum. -/
structure AgeRecord where
  index : Int
  fname : String
  sha : String
deriving DecidableEq, Repr

/-- The rows of the age records whose index equals the subject, in file
order: the index list np.where returns in the source. -/
def ageMatches (records : List AgeRecord) (subject : Int) : List AgeRecord :=
  records.filter (fun r => r.index == subject)

/-- The subject loop of the age fetch_data: assert the subject lies in
0..60, unpack the two matching rows into the psg row and the hypnogram
row, fetch both, and append the pair. -/
def ageFetchLoop (net : String → Bool) (records : List AgeRecord) (p : String)
    (forceUpdate : Bool) :
    List Int → St → Except (PyErr × St) (List (String × String) × St)
  | [], st => .ok ([], st)
  | subject :: rest, st =>
    if 0 ≤ subject ∧ subject ≤ 60 then
      match ageMatches records subject with
      | [rpsg, rhyp] =>
        match fetchOne net rpsg.fname rpsg.sha p forceUpdate st with
        | .error e => .error e
        | .ok (psg, st1) =>
          match fetchOne net rhyp.fname rhyp.sha p forceUpdate st1 with
          | .error e => .error e
          | .ok (hyp, st2) =>
            match ageFetchLoop net records p forceUpdate rest st2 with
            | .error e => .error e
            | .ok (pairs, st3) => .ok ((psg, hyp) :: pairs, st3)
      | ms => .error (.unpackError 2 ms.length, st)
    else
      .error (.assertionError, st)

/-- fetch_data of sleep_physionet_age.py: load the records (passed in as a
parameter, the generated file being absent from the sources), resolve the
cache root, then run the subject loop on an initially empty call trace. -/
def ageFetchData (net : String → Bool) (records : List AgeRecord) (subjects : List Int)
    (path : Option String) (setting : Option String) (forceUpdate : Bool) (fs0 : FS) :
    Except (PyErr × St) (List (String × String) × St) :=
  ageFetchLoop net records (data_path path setting) forceUpdate subjects ⟨fs0, []⟩

/-- One row of the temazepam records.csv table (generated, absent from the
sources), with the columns the source reads: subject, record category,
hypnogram sha1, psg sha1, hypnogram filename, psg filename. -/
structure TRecord where
  subject : Int
  record : String
  hypSha : String
  psgSha : String
  hypFname : String
  psgFname : String
deriving DecidableEq, Repr

/-- Insertion step of the integer sort used to model np.setdiff1d. -/
def insertSorted (x : Int) : List Int → List Int
  | [] => [x]
  | y :: ys => if x ≤ y then x :: y :: ys else y :: insertSorted x ys

/-- Insertion sort on integers. -/
def sortInts : List Int → List Int
  | [] => []
  | x :: xs => insertSorted x (sortInts xs)

/-- Collapse adjacent duplicates of a sorted list. -/
def uniqSorted : List Int → List Int
  | [] => []
  | [x] => [x]
  | x :: y :: ys => if x == y then uniqSorted (y :: ys) else x :: uniqSorted (y :: ys)

/-- np.setdiff1d a b: the sorted unique values of a not contained in b. -/
def setdiff1d (a b : List Int) : List Int :=
  uniqSorted (sortInts (a.filter (fun x => !(b.contains x))))

/-- The message of the temazepam validation error, built exactly as the
source formats it. -/
def tMsg (unknown : List Int) : String :=
  "Only subjects 1 to 24 (except 3 and 23) are available from public" ++
  " PhysioNet temazepam. Unknown subjects: " ++
  String.intercalate ", " (unknown.map toString)

/-- The rows of the temazepam records whose subject equals s, in file
order: the index list np.where returns in the source. -/
def tRowsOf (records : List TRecord) (s : Int) : List TRecord :=
  records.filter (fun r => r.subject == s)

/-- The inner row loop of the temazepam fetch_data: for every matching row
whose record category is the placebo night, fetch the psg file then the
hypnogram file and append the pair; every other row is skipped. -/
def tFetchRows (net : String → Bool) (p : String) (forceUpdate : Bool) :
    List TRecord → St → Except (PyErr × St) (List (String × String) × St)
  | [], st => .ok ([], st)
  | r :: rest, st =>
    if r.record == "Placebo night" then
      match fetchOne net r.psgFname r.psgSha p forceUpdate st with
      | .error e => .error e
      | .ok (psg, st1) =>
        match fetchOne net r.hypFname r.hypSha p forceUpdate st1 with
        | .error e => .error e
        | .ok (hyp, st2) =>
          match tFetchRows net p forceUpdate rest st2 with
          | .error e => .error e
          | .ok (prs, st3) => .ok ((psg, hyp) :: prs, st3)
    else
      tFetchRows net p forceUpdate rest st

/-- The subject loop of the temazepam fetch_data. -/
def tFetchLoop (net : String → Bool) (records : List TRecord) (p : String)
    (forceUpdate : Bool) :
    List Int → St → Except (PyErr × St) (List (String × String) × St)
  | [], st => .ok ([], st)
  | s :: rest, st =>
    match tFetchRows net p forceUpdate (tRowsOf records s) st with
    | .error e => .error e
    | .ok (prs, st1) =>
      match tFetchLoop net records p forceUpdate rest st1 with
      | .error e => .error e
      | .ok (prs2, st2) => .ok (prs ++ prs2, st2)

/-- fetch_data of sleep_physionet_temazepam.py: collect every requested
subject absent from the catalog with np.setdiff1d and raise one
RuntimeError naming them all before resolving the path or touching the
network; otherwise run the subject loop on an initially empty call trace. -/
def tFetchData (net : String → Bool) (records : List TRecord) (subjects : List Int)
    (path : Option String) (setting : Option String) (forceUpdate : Bool) (fs0 : FS) :
    Except (PyErr × St) (List (String × String) × St) :=
  let unknown := setdiff1d subjects (records.map (fun r => r.subject))
  if unknown.isEmpty then
    tFetchLoop net records (data_path path setting) forceUpdate subjects ⟨fs0, []⟩
  else
    .error (.runtimeError (tMsg unknown), ⟨fs0, []⟩)

/-- Modelled from the spec: the generated age catalog table (the npy
records file) is absent from the sources.  The rows below follow the
catalog storage format of spec section 6 and carry the filenames and sha1
checksums the repository test file records for the first combo indices;
they serve as concrete test catalogs for the theorems, which otherwise
quantify over the table. -/
def ageRecordsModel : List AgeRecord :=
  [⟨0, "SC4001E0-PSG.edf", "adabd3b01fc7bb75c523a974f38ee3ae4e57b40f"⟩,
   ⟨0, "SC4001EC-Hypnogram.edf", "21c998eadc8b1e3ea6727d3585186b8f76e7e70b"⟩,
   ⟨1, "SC4002E0-PSG.edf", "c6b6d7a8605cc7e7602b6028ee77f6fbf5f7581d"⟩,
   ⟨1, "SC4002EC-Hypnogram.edf", "386230188a3552b1fc90bba0fb7476ceaca174b6"⟩,
   ⟨2, "SC4011E0-PSG.edf", "4d17451f7847355bcab17584de05e7e1df58c660"⟩,
   ⟨2, "SC4011EH-Hypnogram.edf", "d582a3cbe2db481a362af890bc5a2f5ca7c878dc"⟩]

/-- Modelled from the spec: the generated temazepam records.csv table is
absent from the sources.  Per spec sections 3, 4.3 and 8 the valid domain
is the 22 public subjects, indexed 0 to 21, each with a placebo night row
and another session category row; subject 0 carries the filenames and
sha1 checksums recorded by the repository test file, the rows of the
other subjects are placeholders of the same shape. -/
def tRecordsModel : List TRecord :=
  ⟨0, "Placebo night", "ff28e5e01296cefed49ae0c27cfb3ebc42e710bf",
     "b9d11484126ebff1884034396d6a20c62c0ef48d",
     "ST7011JP-Hypnogram.edf", "ST7011J0-PSG.edf"⟩ ::
  ⟨0, "Temazepam night", "cafe0000", "cafe0001",
     "ST7012JR-Hypnogram.edf", "ST7012J0-PSG.edf"⟩ ::
  ((List.range 21).flatMap (fun k =>
    [⟨(k : Int) + 1, "Placebo night", "hp" ++ toString (k + 1), "pp" ++ toString (k + 1),
       "STP" ++ toString (k + 1) ++ "-Hypnogram.edf", "STP" ++ toString (k + 1) ++ "-PSG.edf"⟩,
     ⟨(k : Int) + 1, "Temazepam night", "ht" ++ toString (k + 1), "pt" ++ toString (k + 1),
       "STT" ++ toString (k + 1) ++ "-Hypnogram.edf", "STT" ++ toString (k + 1) ++ "-PSG.edf"⟩]))

/-- Modelled test catalog exercising the row-count assumption of the age
fetch_data: subject 0 has the assumed two rows, subject 5 has three. -/
def claim10Records : List AgeRecord :=
  [⟨0, "A0.edf", "sa"⟩, ⟨0, "B0.edf", "sb"⟩,
   ⟨5, "X.edf", "sx"⟩, ⟨5, "Y.edf", "sy"⟩, ⟨5, "Z.edf", "sz"⟩]

/-- The pair list of a fetch_data result, when it succeeded. -/
def resPairs : Except (PyErr × St) (List (String × String) × St) →
    Option (List (String × String))
  | .ok (prs, _) => some prs
  | .error _ => none

/-- The error of a fetch_data result, when it failed. -/
def resErr : Except (PyErr × St) (List (String × String) × St) → Option PyErr
  | .ok _ => none
  | .error (e, _) => some e

/-- The number of transport calls a fetch_data run issued, counted on both
outcomes. -/
def resCallCount : Except (PyErr × St) (List (String × String) × St) → Nat
  | .ok (_, st) => st.calls.length
  | .error (_, st) => st.calls.length

/-- The state a fetchOne run ends in, on both outcomes. -/
def resStF : Except (PyErr × St) (String × St) → St
  | .ok (_, st) => st
  | .error (_, st) => st

/-- The destinations the age loop writes for the given subjects, in fetch
order. -/
def ageDests (records : List AgeRecord) (p : String) (subjects : List Int) : List String :=
  subjects.flatMap (fun s => (ageMatches records s).map (fun r => joinPath p r.fname))

/-- The pair list the age loop returns for the given subjects: one pair
per subject, in input order, first matching row as the psg member and
second matching row as the hypnogram member. -/
def agePairsSpec (records : List AgeRecord) (p : String) (subjects : List Int) :
    List (String × String) :=
  subjects.map (fun s =>
    match ageMatches records s with
    | [r1, r2] => (joinPath p r1.fname, joinPath p r2.fname)
    | _ => ("", ""))

/-- The transport calls the age loop issues on an empty cache, in order. -/
def ageCallsSpec (records : List AgeRecord) (p : String) (subjects : List Int) :
    List TransportCall :=
  subjects.flatMap (fun s => (ageMatches records s).map
    (fun r => ⟨BASE_URL ++ "/" ++ r.fname, joinPath p r.fname, r.sha⟩))

/-- The placebo night rows of a row list, in order. -/
def placeboRows (rows : List TRecord) : List TRecord :=
  rows.filter (fun r => r.record == "Placebo night")

/-- The destinations the temazepam row loop writes, in fetch order. -/
def rowDests (p : String) (rows : List TRecord) : List String :=
  (placeboRows rows).flatMap (fun r => [joinPath p r.psgFname, joinPath p r.hypFname])

/-- The pair list the temazepam row loop returns, in order. -/
def rowPairs (p : String) (rows : List TRecord) : List (String × String) :=
  (placeboRows rows).map (fun r => (joinPath p r.psgFname, joinPath p r.hypFname))

/-- The transport calls the temazepam row loop issues on an empty cache. -/
def rowCalls (p : String) (rows : List TRecord) : List TransportCall :=
  (placeboRows rows).flatMap (fun r =>
    [⟨BASE_URL ++ "/" ++ r.psgFname, joinPath p r.psgFname, r.psgSha⟩,
     ⟨BASE_URL ++ "/" ++ r.hypFname, joinPath p r.hypFname, r.hypSha⟩])

/-- The destinations the temazepam subject loop writes, in fetch order. -/
def tDests (records : List TRecord) (p : String) (subjects : List Int) : List String :=
  subjects.flatMap (fun s => rowDests p (tRowsOf records s))

/-- The pair list the temazepam subject loop returns: the placebo night
pairs of every requested subject, in input subject order. -/
def tPairsSpec (records : List TRecord) (p : String) (subjects : List Int) :
    List (String × String) :=
  subjects.flatMap (fun s => rowPairs p (tRowsOf records s))

/-- The transport calls the temazepam subject loop issues on an empty
cache, in order. -/
def tCallsSpec (records : List TRecord) (p : String) (subjects : List Int) :
    List TransportCall :=
  subjects.flatMap (fun s => rowCalls p (tRowsOf records s))

theorem isfile_eq_false_iff (fs : FS) (d : String) :
    isfile fs d = false ↔ d ∉ fs.files := by
  simp [isfile]

theorem isfile_eq_true_iff (fs : FS) (d : String) :
    isfile fs d = true ↔ d ∈ fs.files := by
  simp [isfile]

theorem removeStale_of_not {fs : FS} {d : String} (h : isfile fs d = false) :
    removeStale fs d = fs := by
  simp [removeStale, h]

theorem ensureDir_files (fs : FS) (dir : String) :
    (ensureDir fs dir).files = fs.files := by
  unfold ensureDir
  split <;> rfl

theorem fetchOne_hit {net : String → Bool} {fname hashsum path : String} {st : St}
    (h : isfile st.fs (joinPath path fname) = true) :
    fetchOne net fname hashsum path false st = .ok (joinPath path fname, st) := by
  simp [fetchOne, h]

theorem fetchOne_miss {net : String → Bool} {fname hashsum path : String} {st : St}
    (hm : isfile st.fs (joinPath path fname) = false)
    (hn : net (BASE_URL ++ "/" ++ fname) = true) :
    ∃ ds, fetchOne net fname hashsum path false st =
      .ok (joinPath path fname,
        ⟨⟨joinPath path fname :: st.fs.files, ds⟩,
         st.calls ++ [⟨BASE_URL ++ "/" ++ fname, joinPath path fname, hashsum⟩]⟩) := by
  refine ⟨(ensureDir st.fs (dirname (joinPath path fname))).dirs, ?_⟩
  simp [fetchOne, hm, hn, removeStale_of_not hm, ensureDir_files]

theorem fetchOne_ok_of_net {net : String → Bool} {fname hashsum path : String}
    {forceUpdate : Bool} {st : St} (hn : net (BASE_URL ++ "/" ++ fname) = true) :
    ∃ st', fetchOne net fname hashsum path forceUpdate st =
      .ok (joinPath path fname, st') := by
  by_cases h : (!(isfile st.fs (joinPath path fname)) || forceUpdate) = true
  · refine ⟨⟨⟨joinPath path fname ::
        (ensureDir (removeStale st.fs (joinPath path fname))
          (dirname (joinPath path fname))).files,
        (ensureDir (removeStale st.fs (joinPath path fname))
          (dirname (joinPath path fname))).dirs⟩,
        st.calls ++ [⟨BASE_URL ++ "/" ++ fname, joinPath path fname, hashsum⟩]⟩, ?_⟩
    simp [fetchOne, h, hn]
  · refine ⟨st, ?_⟩
    simp only [Bool.or_eq_true, Bool.not_eq_true', not_or] at h
    simp [fetchOne, h.1, h.2]

theorem removeStale_not_mem (fs : FS) (d : String) :
    d ∉ (removeStale fs d).files := by
  unfold removeStale
  split
  · simp [List.mem_filter]
  · next h =>
    rw [Bool.not_eq_true, isfile_eq_false_iff] at h
    exact h

theorem ensureDir_isdir (fs : FS) (dir : String) :
    isdir (ensureDir fs dir) dir = true := by
  unfold ensureDir
  split
  · next h => exact h
  · simp [isdir]

theorem fetchOne_false_ok_inv {net : String → Bool} {fname hashsum path : String}
    {st : St} {r : String} {st' : St}
    (h : fetchOne net fname hashsum path false st = .ok (r, st')) :
    r = joinPath path fname ∧ isfile st'.fs (joinPath path fname) = true ∧
    st'.calls.length ≤ st.calls.length + 1 := by
  by_cases hc : isfile st.fs (joinPath path fname) = true
  · rw [fetchOne_hit hc] at h
    simp only [Except.ok.injEq, Prod.mk.injEq] at h
    obtain ⟨h1, h2⟩ := h
    subst h1
    subst h2
    exact ⟨rfl, hc, Nat.le_succ _⟩
  · have hc' : isfile st.fs (joinPath path fname) = false := by
      simpa using hc
    cases hn : net (BASE_URL ++ "/" ++ fname) with
    | false =>
      exfalso
      simp [fetchOne, hc', hn] at h
    | true =>
      obtain ⟨ds, hm⟩ := @fetchOne_miss net fname hashsum path st hc' hn
      rw [hm] at h
      simp only [Except.ok.injEq, Prod.mk.injEq] at h
      obtain ⟨h1, h2⟩ := h
      subst h1
      subst h2
      refine ⟨rfl, by simp [isfile], by simp⟩

theorem fetchOne_err_inv {net : String → Bool} {fname hashsum path : String}
    {forceUpdate : Bool} {st : St} {e : PyErr} {st' : St}
    (h : fetchOne net fname hashsum path forceUpdate st = .error (e, st')) :
    isfile st'.fs (joinPath path fname) = false := by
  unfold fetchOne at h
  by_cases hb : (!(isfile st.fs (joinPath path fname)) || forceUpdate) = true
  · rw [if_pos hb] at h
    cases hn : net (BASE_URL ++ "/" ++ fname) with
    | true =>
      exfalso
      simp [hn] at h
    | false =>
      simp only [hn, Bool.false_eq_true, if_false, Except.error.injEq,
        Prod.mk.injEq] at h
      obtain ⟨h1, h2⟩ := h
      subst h2
      rw [isfile_eq_false_iff, ensureDir_files]
      exact removeStale_not_mem st.fs (joinPath path fname)
  · rw [if_neg hb] at h
    exact absurd h (by simp)

theorem ageLoop_ok (net : String → Bool) (records : List AgeRecord) (p : String)
    (subjects : List Int) :
    ∀ st : St,
    (∀ u, net u = true) →
    (∀ s ∈ subjects, 0 ≤ s ∧ s ≤ 60) →
    (∀ s ∈ subjects, (ageMatches records s).length = 2) →
    (ageDests records p subjects).Nodup →
    (∀ d ∈ ageDests records p subjects, d ∉ st.fs.files) →
    ∃ ds, ageFetchLoop net records p false subjects st =
      .ok (agePairsSpec records p subjects,
        ⟨⟨(ageDests records p subjects).reverse ++ st.fs.files, ds⟩,
         st.calls ++ ageCallsSpec records p subjects⟩) := by
  induction subjects with
  | nil =>
    intro st _ _ _ _ _
    exact ⟨st.fs.dirs, by simp [ageFetchLoop, ageDests, agePairsSpec, ageCallsSpec]⟩
  | cons s rest ih =>
    intro st hnet hsub hrows hnodup hdisj
    obtain ⟨h0, h60⟩ := hsub s (List.mem_cons_self s rest)
    have hlen := hrows s (List.mem_cons_self s rest)
    rcases hm : ageMatches records s with _ | ⟨r1, _ | ⟨r2, _ | ⟨r3, t⟩⟩⟩ <;>
      rw [hm] at hlen <;> simp at hlen
    have hdests : ageDests records p (s :: rest) =
        joinPath p r1.fname :: joinPath p r2.fname :: ageDests records p rest := by
      simp [ageDests, hm]
    rw [hdests] at hnodup hdisj
    have hd1files : joinPath p r1.fname ∉ st.fs.files :=
      hdisj _ (List.mem_cons_self _ _)
    have hd2files : joinPath p r2.fname ∉ st.fs.files :=
      hdisj _ (List.mem_cons_of_mem _ (List.mem_cons_self _ _))
    have hne12 : joinPath p r1.fname ≠ joinPath p r2.fname := by
      intro hEq
      exact (List.nodup_cons.mp hnodup).1 (hEq ▸ List.mem_cons_self _ _)
    have hd2rest : joinPath p r2.fname ∉ ageDests records p rest :=
      (List.nodup_cons.mp (List.nodup_cons.mp hnodup).2).1
    have hd1rest : joinPath p r1.fname ∉ ageDests records p rest := by
      intro hIn
      exact (List.nodup_cons.mp hnodup).1 (List.mem_cons_of_mem _ hIn)
    obtain ⟨ds1, hf1⟩ := @fetchOne_miss net r1.fname r1.sha p st
      ((isfile_eq_false_iff _ _).mpr hd1files) (hnet _)
    obtain ⟨ds2, hf2⟩ := @fetchOne_miss net r2.fname r2.sha p
      ⟨⟨joinPath p r1.fname :: st.fs.files, ds1⟩,
       st.calls ++ [⟨BASE_URL ++ "/" ++ r1.fname, joinPath p r1.fname, r1.sha⟩]⟩
      ((isfile_eq_false_iff _ _).mpr (by
        intro hIn
        rcases List.mem_cons.mp hIn with hEq | hIn2
        · exact hne12 hEq.symm
        · exact hd2files hIn2)) (hnet _)
    obtain ⟨dsr, hrec⟩ := ih
      ⟨⟨joinPath p r2.fname :: joinPath p r1.fname :: st.fs.files, ds2⟩,
       (st.calls ++ [⟨BASE_URL ++ "/" ++ r1.fname, joinPath p r1.fname, r1.sha⟩]) ++
         [⟨BASE_URL ++ "/" ++ r2.fname, joinPath p r2.fname, r2.sha⟩]⟩
      hnet
      (fun x hx => hsub x (List.mem_cons_of_mem _ hx))
      (fun x hx => hrows x (List.mem_cons_of_mem _ hx))
      (List.nodup_cons.mp (List.nodup_cons.mp hnodup).2).2
      (by
        intro d hd hIn
        rcases List.mem_cons.mp hIn with hEq | hIn2
        · exact hd2rest (hEq ▸ hd)
        rcases List.mem_cons.mp hIn2 with hEq | hIn3
        · exact hd1rest (hEq ▸ hd)
        · exact hdisj d (List.mem_cons_of_mem _ (List.mem_cons_of_mem _ hd)) hIn3)
    refine ⟨dsr, ?_⟩
    simp only [ageFetchLoop]
    rw [if_pos ⟨h0, h60⟩, hm]
    simp only [hf1, hf2, hrec]
    simp [agePairsSpec, ageCallsSpec, hm, hdests, List.append_assoc]

theorem tRows_ok (net : String → Bool) (p : String) (rows : List TRecord) :
    ∀ st : St,
    (∀ u, net u = true) →
    (rowDests p rows).Nodup →
    (∀ d ∈ rowDests p rows, d ∉ st.fs.files) →
    ∃ ds, tFetchRows net p false rows st =
      .ok (rowPairs p rows,
        ⟨⟨(rowDests p rows).reverse ++ st.fs.files, ds⟩,
         st.calls ++ rowCalls p rows⟩) := by
  induction rows with
  | nil =>
    intro st _ _ _
    exact ⟨st.fs.dirs, by simp [tFetchRows, rowDests, rowPairs, rowCalls, placeboRows]⟩
  | cons r rest ih =>
    intro st hnet hnodup hdisj
    by_cases hc : (r.record == "Placebo night") = true
    · have hdests : rowDests p (r :: rest) =
          joinPath p r.psgFname :: joinPath p r.hypFname :: rowDests p rest := by
        simp [rowDests, placeboRows, hc]
      rw [hdests] at hnodup hdisj
      have hd1files : joinPath p r.psgFname ∉ st.fs.files :=
        hdisj _ (List.mem_cons_self _ _)
      have hd2files : joinPath p r.hypFname ∉ st.fs.files :=
        hdisj _ (List.mem_cons_of_mem _ (List.mem_cons_self _ _))
      have hne12 : joinPath p r.psgFname ≠ joinPath p r.hypFname := by
        intro hEq
        exact (List.nodup_cons.mp hnodup).1 (hEq ▸ List.mem_cons_self _ _)
      have hd2rest : joinPath p r.hypFname ∉ rowDests p rest :=
        (List.nodup_cons.mp (List.nodup_cons.mp hnodup).2).1
      have hd1rest : joinPath p r.psgFname ∉ rowDests p rest := by
        intro hIn
        exact (List.nodup_cons.mp hnodup).1 (List.mem_cons_of_mem _ hIn)
      obtain ⟨ds1, hf1⟩ := @fetchOne_miss net r.psgFname r.psgSha p st
        ((isfile_eq_false_iff _ _).mpr hd1files) (hnet _)
      obtain ⟨ds2, hf2⟩ := @fetchOne_miss net r.hypFname r.hypSha p
        ⟨⟨joinPath p r.psgFname :: st.fs.files, ds1⟩,
         st.calls ++ [⟨BASE_URL ++ "/" ++ r.psgFname, joinPath p r.psgFname, r.psgSha⟩]⟩
        ((isfile_eq_false_iff _ _).mpr (by
          intro hIn
          rcases List.mem_cons.mp hIn with hEq | hIn2
          · exact hne12 hEq.symm
          · exact hd2files hIn2)) (hnet _)
      obtain ⟨dsr, hrec⟩ := ih
        ⟨⟨joinPath p r.hypFname :: joinPath p r.psgFname :: st.fs.files, ds2⟩,
         (st.calls ++ [⟨BASE_URL ++ "/" ++ r.psgFname, joinPath p r.psgFname, r.psgSha⟩]) ++
           [⟨BASE_URL ++ "/" ++ r.hypFname, joinPath p r.hypFname, r.hypSha⟩]⟩
        hnet
        (List.nodup_cons.mp (List.nodup_cons.mp hnodup).2).2
        (by
          intro d hd hIn
          rcases List.mem_cons.mp hIn with hEq | hIn2
          · exact hd2rest (hEq ▸ hd)
          rcases List.mem_cons.mp hIn2 with hEq | hIn3
          · exact hd1rest (hEq ▸ hd)
          · exact hdisj d (List.mem_cons_of_mem _ (List.mem_cons_of_mem _ hd)) hIn3)
      refine ⟨dsr, ?_⟩
      simp only [tFetchRows, hc, if_true]
      simp only [hf1, hf2, hrec]
      simp [rowPairs, rowCalls, placeboRows, hc, hdests, List.append_assoc]
    · have hc' : (r.record == "Placebo night") = false := by
        simpa using hc
      have hdests : rowDests p (r :: rest) = rowDests p rest := by
        simp [rowDests, placeboRows, hc']
      rw [hdests] at hnodup hdisj
      obtain ⟨ds, hrec⟩ := ih st hnet hnodup hdisj
      refine ⟨ds, ?_⟩
      simp only [tFetchRows, hc', Bool.false_eq_true, if_false]
      rw [hrec, hdests]
      simp [rowPairs, rowCalls, placeboRows, hc']

theorem tLoop_ok (net : String → Bool) (records : List TRecord) (p : String)
    (subjects : List Int) :
    ∀ st : St,
    (∀ u, net u = true) →
    (tDests records p subjects).Nodup →
    (∀ d ∈ tDests records p subjects, d ∉ st.fs.files) →
    ∃ ds, tFetchLoop net records p false subjects st =
      .ok (tPairsSpec records p subjects,
        ⟨⟨(tDests records p subjects).reverse ++ st.fs.files, ds⟩,
         st.calls ++ tCallsSpec records p subjects⟩) := by
  induction subjects with
  | nil =>
    intro st _ _ _
    exact ⟨st.fs.dirs, by simp [tFetchLoop, tDests, tPairsSpec, tCallsSpec]⟩
  | cons s rest ih =>
    intro st hnet hnodup hdisj
    have hdests : tDests records p (s :: rest) =
        rowDests p (tRowsOf records s) ++ tDests records p rest := by
      simp [tDests]
    rw [hdests] at hnodup hdisj
    rw [List.nodup_append] at hnodup
    obtain ⟨hnd1, hnd2, hdisj12⟩ := hnodup
    obtain ⟨ds1, h1⟩ := tRows_ok net p (tRowsOf records s) st hnet hnd1
      (fun d hd => hdisj d (List.mem_append_left _ hd))
    obtain ⟨ds2, h2⟩ := ih
      ⟨⟨(rowDests p (tRowsOf records s)).reverse ++ st.fs.files, ds1⟩,
       st.calls ++ rowCalls p (tRowsOf records s)⟩
      hnet hnd2
      (by
        intro d hd hIn
        rcases List.mem_append.mp hIn with hIn1 | hIn2
        · exact hdisj12 (List.mem_reverse.mp hIn1) hd
        · exact hdisj d (List.mem_append_right _ hd) hIn2)
    refine ⟨ds2, ?_⟩
    simp only [tFetchLoop, h1, h2]
    simp [tPairsSpec, tCallsSpec, tDests, List.reverse_append, List.append_assoc]

theorem tRows_pairs (net : String → Bool) (p : String) (forceUpdate : Bool)
    (hnet : ∀ u, net u = true) (rows : List TRecord) :
    ∀ st : St, ∃ st', tFetchRows net p forceUpdate rows st =
      .ok (rowPairs p rows, st') := by
  induction rows with
  | nil =>
    intro st
    exact ⟨st, by simp [tFetchRows, rowPairs, placeboRows]⟩
  | cons r rest ih =>
    intro st
    by_cases hc : (r.record == "Placebo night") = true
    · obtain ⟨st1, h1⟩ := @fetchOne_ok_of_net net r.psgFname r.psgSha p forceUpdate st
        (hnet _)
      obtain ⟨st2, h2⟩ := @fetchOne_ok_of_net net r.hypFname r.hypSha p forceUpdate st1
        (hnet _)
      obtain ⟨st3, h3⟩ := ih st2
      refine ⟨st3, ?_⟩
      simp only [tFetchRows, hc, if_true, h1, h2, h3]
      simp [rowPairs, placeboRows, hc]
    · have hc' : (r.record == "Placebo night") = false := by
        simpa using hc
      obtain ⟨st', h'⟩ := ih st
      refine ⟨st', ?_⟩
      simp only [tFetchRows, hc', Bool.false_eq_true, if_false, h']
      simp [rowPairs, placeboRows, hc']

theorem tLoop_pairs (net : String → Bool) (records : List TRecord) (p : String)
    (forceUpdate : Bool) (hnet : ∀ u, net u = true) (subjects : List Int) :
    ∀ st : St, ∃ st', tFetchLoop net records p forceUpdate subjects st =
      .ok (tPairsSpec records p subjects, st') := by
  induction subjects with
  | nil =>
    intro st
    exact ⟨st, by simp [tFetchLoop, tPairsSpec]⟩
  | cons s rest ih =>
    intro st
    obtain ⟨st1, h1⟩ := tRows_pairs net p forceUpdate hnet (tRowsOf records s) st
    obtain ⟨st2, h2⟩ := ih st1
    refine ⟨st2, ?_⟩
    simp only [tFetchLoop, h1, h2]
    simp [tPairsSpec]

theorem ageCalls_len (records : List AgeRecord) (p : String) :
    ∀ subjects : List Int, (∀ s ∈ subjects, (ageMatches records s).length = 2) →
      (ageCallsSpec records p subjects).length = 2 * subjects.length := by
  intro subjects
  induction subjects with
  | nil => intro _; simp [ageCallsSpec]
  | cons s rest ih =>
    intro h
    have hs := h s (List.mem_cons_self s rest)
    have hr := ih (fun x hx => h x (List.mem_cons_of_mem _ hx))
    simp only [ageCallsSpec, List.flatMap_cons, List.length_append, List.length_map,
      List.length_cons] at hr ⊢
    rw [hs]
    omega

theorem rowCalls_len (p : String) (rows : List TRecord) :
    (rowCalls p rows).length = 2 * (rowPairs p rows).length := by
  induction rows with
  | nil => simp [rowCalls, rowPairs, placeboRows]
  | cons r rest ih =>
    by_cases hc : (r.record == "Placebo night") = true
    · have h1 : rowCalls p (r :: rest) =
          ⟨BASE_URL ++ "/" ++ r.psgFname, joinPath p r.psgFname, r.psgSha⟩ ::
          ⟨BASE_URL ++ "/" ++ r.hypFname, joinPath p r.hypFname, r.hypSha⟩ ::
          rowCalls p rest := by
        simp [rowCalls, placeboRows, List.filter_cons, hc]
      have h2 : rowPairs p (r :: rest) =
          (joinPath p r.psgFname, joinPath p r.hypFname) :: rowPairs p rest := by
        simp [rowPairs, placeboRows, List.filter_cons, hc]
      rw [h1, h2]
      simp only [List.length_cons]
      omega
    · have hc' : (r.record == "Placebo night") = false := by
        simpa using hc
      have h1 : rowCalls p (r :: rest) = rowCalls p rest := by
        simp [rowCalls, placeboRows, List.filter_cons, hc']
      have h2 : rowPairs p (r :: rest) = rowPairs p rest := by
        simp [rowPairs, placeboRows, List.filter_cons, hc']
      rw [h1, h2, ih]

theorem tCalls_len (records : List TRecord) (p : String) (subjects : List Int) :
    (tCallsSpec records p subjects).length = 2 * (tPairsSpec records p subjects).length := by
  induction subjects with
  | nil => simp [tCallsSpec, tPairsSpec]
  | cons s rest ih =>
    simp only [tCallsSpec, tPairsSpec, List.flatMap_cons, List.length_append] at ih ⊢
    rw [rowCalls_len]
    omega

theorem ageLoop_len (net : String → Bool) (records : List AgeRecord) (p : String)
    (forceUpdate : Bool) (subjects : List Int) :
    ∀ st prs st', ageFetchLoop net records p forceUpdate subjects st = .ok (prs, st') →
      prs.length = subjects.length := by
  induction subjects with
  | nil =>
    intro st prs st' h
    simp only [ageFetchLoop, Except.ok.injEq, Prod.mk.injEq] at h
    rw [← h.1]
    rfl
  | cons s rest ih =>
    intro st prs st' h
    simp only [ageFetchLoop] at h
    split at h
    · split at h
      · split at h
        · exact absurd h (by simp)
        · split at h
          · exact absurd h (by simp)
          · split at h
            · exact absurd h (by simp)
            · next pairs st3 heq =>
              simp only [Except.ok.injEq, Prod.mk.injEq] at h
              rw [← h.1]
              simp [ih _ _ _ heq]
      · exact absurd h (by simp)
    · exact absurd h (by simp)

/-- C1: the claim says every out-of-domain subject makes fetch_data raise
a ValidationError before any transport call, with a message enumerating
the valid domain and the offending subjects, for both catalogs.  On the
age catalog the code instead guards the loop with a bare assert: subject
61 fails with an AssertionError that carries no message at all, so the
enumeration half of the claim fails there (and subject 20, invalid per
the repository test, passes the assert).  This theorem evaluates the
embedded age fetch_data at the failing input: the error is the bare
assertion failure, raised before any transport call. -/
theorem claim1_age_bare_assert_no_message (net : String → Bool)
    (records : List AgeRecord) (path setting : Option String)
    (forceUpdate : Bool) (fs0 : FS) :
    ageFetchData net records [61] path setting forceUpdate fs0 =
      .error (.assertionError, ⟨fs0, []⟩) := by
  simp only [ageFetchData, ageFetchLoop]
  rw [if_neg (by decide)]

/-- C2: calling the verified-fetch primitive twice with force_update false
for the same filename and cache root: whenever the first call succeeded,
the destination exists afterwards, so the second call returns the same
path and the unchanged state immediately, issuing no transport call (and
hence no checksum re-verification, which lives inside the transport);
the two calls together issue at most one transport call. -/
theorem claim2_fetchOne_idempotent (net : String → Bool)
    (fname hashsum path : String) (fs0 : FS) (st1 : St)
    (h : fetchOne net fname hashsum path false ⟨fs0, []⟩ =
      .ok (joinPath path fname, st1)) :
    fetchOne net fname hashsum path false st1 = .ok (joinPath path fname, st1) ∧
    st1.calls.length ≤ 1 := by
  obtain ⟨-, hfile, hlen⟩ := fetchOne_false_ok_inv h
  exact ⟨fetchOne_hit hfile, by simpa using hlen⟩

/-- Witness for C2: a concrete first fetch on an empty cache downloads the
file once; the theorem then gives the cache-hit second call and the
at-most-one-call bound. -/
theorem claim2_fetchOne_idempotent_witness :
    fetchOne (fun _ => true) "f.edf" "abc" "/c" false
      ⟨⟨["/c/f.edf"], ["/c"]⟩,
       [⟨"https://physionet.org/pn4/sleep-edfx//f.edf", "/c/f.edf", "abc"⟩]⟩ =
      .ok ("/c/f.edf",
        ⟨⟨["/c/f.edf"], ["/c"]⟩,
         [⟨"https://physionet.org/pn4/sleep-edfx//f.edf", "/c/f.edf", "abc"⟩]⟩) ∧
    (⟨⟨["/c/f.edf"], ["/c"]⟩,
      [⟨"https://physionet.org/pn4/sleep-edfx//f.edf", "/c/f.edf", "abc"⟩]⟩ :
        St).calls.length ≤ 1 :=
  claim2_fetchOne_idempotent (fun _ => true) "f.edf" "abc" "/c" ⟨[], []⟩
    ⟨⟨["/c/f.edf"], ["/c"]⟩,
     [⟨"https://physionet.org/pn4/sleep-edfx//f.edf", "/c/f.edf", "abc"⟩]⟩
    (by decide)

/-- C3: with force_update true the verified-fetch primitive always issues
exactly one transport call for the file, whether or not a local copy
exists; the stale copy is removed and the parent directory created before
the download runs: on failure the destination holds no file and the
parent directory exists, on success the files are exactly the fresh
destination on top of the old files with any stale copy removed, and the
parent directory exists. -/
theorem claim3_force_update_one_call (net : String → Bool)
    (fname hashsum path : String) (st : St) :
    (resStF (fetchOne net fname hashsum path true st)).calls =
      st.calls ++ [⟨BASE_URL ++ "/" ++ fname, joinPath path fname, hashsum⟩] ∧
    (∀ e st', fetchOne net fname hashsum path true st = .error (e, st') →
      isfile st'.fs (joinPath path fname) = false ∧
      isdir st'.fs (dirname (joinPath path fname)) = true) ∧
    (∀ r st', fetchOne net fname hashsum path true st = .ok (r, st') →
      r = joinPath path fname ∧
      st'.fs.files = joinPath path fname ::
        (removeStale st.fs (joinPath path fname)).files ∧
      isdir st'.fs (dirname (joinPath path fname)) = true) := by
  cases hn : net (BASE_URL ++ "/" ++ fname) with
  | true =>
    refine ⟨?_, ?_, ?_⟩
    · simp [fetchOne, hn, resStF]
    · intro e st' h
      exfalso
      simp [fetchOne, hn] at h
    · intro r st' h
      simp only [fetchOne, Bool.or_true, if_true, hn, Except.ok.injEq,
        Prod.mk.injEq] at h
      obtain ⟨h1, h2⟩ := h
      subst h1
      subst h2
      refine ⟨rfl, by simp [ensureDir_files], ?_⟩
      have hiso := ensureDir_isdir (removeStale st.fs (joinPath path fname))
        (dirname (joinPath path fname))
      simpa [isdir] using hiso
  | false =>
    refine ⟨?_, ?_, ?_⟩
    · simp [fetchOne, hn, resStF]
    · intro e st' h
      simp only [fetchOne, Bool.or_true, if_true, hn, Bool.false_eq_true,
        if_false, Except.error.injEq, Prod.mk.injEq] at h
      obtain ⟨h1, h2⟩ := h
      subst h2
      refine ⟨?_, ensureDir_isdir _ _⟩
      rw [isfile_eq_false_iff, ensureDir_files]
      exact removeStale_not_mem _ _
    · intro r st' h
      exfalso
      simp [fetchOne, hn] at h

/-- Witness for C3: a concrete force-update run over a stale copy with a
failing transport, taking the error conjunct of the theorem: the stale
file is gone and the parent directory exists. -/
theorem claim3_force_update_one_call_witness :
    isfile (⟨[], ["/c"]⟩ : FS) "/c/f.edf" = false ∧
    isdir (⟨[], ["/c"]⟩ : FS) "/c" = true :=
  (claim3_force_update_one_call (fun _ => false) "f.edf" "abc" "/c"
      ⟨⟨["/c/f.edf"], []⟩, []⟩).2.1
    (.downloadError "https://physionet.org/pn4/sleep-edfx//f.edf" "/c/f.edf")
    ⟨⟨[], ["/c"]⟩,
     [⟨"https://physionet.org/pn4/sleep-edfx//f.edf", "/c/f.edf", "abc"⟩]⟩
    (by decide)

/-- C4: whenever the verified fetch fails, the destination holds no file
at all afterwards (the transport, per the spec contract, writes the
destination only once integrity is confirmed and removes partial output
on failure), so a failed run never leaves corrupt or incomplete content
at the destination; and a path is only returned on success, when the
destination exists with transport-verified content. -/
theorem claim4_no_corrupt_on_failure (net : String → Bool)
    (fname hashsum path : String) (forceUpdate : Bool) (st : St) :
    (∀ e st', fetchOne net fname hashsum path forceUpdate st = .error (e, st') →
      isfile st'.fs (joinPath path fname) = false) ∧
    (∀ r st', fetchOne net fname hashsum path forceUpdate st = .ok (r, st') →
      r = joinPath path fname ∧ isfile st'.fs (joinPath path fname) = true) := by
  constructor
  · intro e st' h
    exact fetchOne_err_inv h
  · intro r st' h
    unfold fetchOne at h
    by_cases hb : (!(isfile st.fs (joinPath path fname)) || forceUpdate) = true
    · rw [if_pos hb] at h
      cases hn : net (BASE_URL ++ "/" ++ fname) with
      | false =>
        rw [hn] at h
        exact absurd h (by simp)
      | true =>
        rw [hn] at h
        simp only [if_true, Except.ok.injEq, Prod.mk.injEq] at h
        obtain ⟨h1, h2⟩ := h
        subst h1
        subst h2
        exact ⟨rfl, by simp [isfile]⟩
    · rw [if_neg hb] at h
      simp only [Except.ok.injEq, Prod.mk.injEq] at h
      obtain ⟨h1, h2⟩ := h
      subst h1
      subst h2
      refine ⟨rfl, ?_⟩
      simp only [Bool.or_eq_true, Bool.not_eq_true', not_or] at hb
      rcases hb with ⟨hb1, -⟩
      simpa using hb1

/-- Witness for C4: a concrete failing download over a previously valid
copy, taking the failure conjunct of the theorem: afterwards the
destination holds no file. -/
theorem claim4_no_corrupt_on_failure_witness :
    isfile (⟨[], ["/d"]⟩ : FS) "/d/g.edf" = false :=
  (claim4_no_corrupt_on_failure (fun _ => false) "g.edf" "h1" "/d" true
      ⟨⟨["/d/g.edf"], []⟩, []⟩).1
    (.downloadError "https://physionet.org/pn4/sleep-edfx//g.edf" "/d/g.edf")
    ⟨⟨[], ["/d"]⟩,
     [⟨"https://physionet.org/pn4/sleep-edfx//g.edf", "/d/g.edf", "h1"⟩]⟩
    (by decide)

/-- C5: the claim (and the repository test) call the age fetch_data with a
recording selector and expect one pair for recording=[1] and two pairs
for recording=[1,2] on a single subject.  The source age fetch_data has
no recording parameter at all: its subjects are recording-combo indices
0..60 and every successful request returns exactly one pair per
requested subject, so a one-subject request can never produce the two
pairs the claim describes for recording=[1,2].  This theorem pins that
length behaviour of the source. -/
theorem claim5_age_one_pair_per_subject (net : String → Bool)
    (records : List AgeRecord) (subjects : List Int) (path setting : Option String)
    (forceUpdate : Bool) (fs0 : FS) (prs : List (String × String)) (st2 : St)
    (h : ageFetchData net records subjects path setting forceUpdate fs0 =
      .ok (prs, st2)) :
    prs.length = subjects.length :=
  ageLoop_len net records (data_path path setting) forceUpdate subjects
    ⟨fs0, []⟩ prs st2 h

/-- Witness for C5 at a concrete fully cached run of one subject. -/
theorem claim5_age_one_pair_per_subject_witness :
    ([("/c/physionet-sleep-data/SC4001E0-PSG.edf",
       "/c/physionet-sleep-data/SC4001EC-Hypnogram.edf")] :
      List (String × String)).length = ([0] : List Int).length :=
  claim5_age_one_pair_per_subject (fun _ => true) ageRecordsModel [0] (some "/c")
    none false
    ⟨["/c/physionet-sleep-data/SC4001E0-PSG.edf",
      "/c/physionet-sleep-data/SC4001EC-Hypnogram.edf"], []⟩
    [("/c/physionet-sleep-data/SC4001E0-PSG.edf",
      "/c/physionet-sleep-data/SC4001EC-Hypnogram.edf")]
    ⟨⟨["/c/physionet-sleep-data/SC4001E0-PSG.edf",
       "/c/physionet-sleep-data/SC4001EC-Hypnogram.edf"], []⟩, []⟩
    (by decide)

/-- C6: temazepam fetch_data on the modelled catalog: subject 0 yields
exactly the placebo night pair ST7011J0-PSG.edf with
ST7011JP-Hypnogram.edf; subject 22 makes the call fail, before any
transport call, with the validation error naming every invalid subject
of the request; and in general every valid request returns exactly the
placebo night pairs of its subjects in input order, rows of any other
session category being ignored. -/
theorem claim6_temazepam_catalog :
    resPairs (tFetchData (fun _ => true) tRecordsModel [0] (some "/cache") none
        false ⟨[], []⟩) =
      some [("/cache/physionet-sleep-data/ST7011J0-PSG.edf",
             "/cache/physionet-sleep-data/ST7011JP-Hypnogram.edf")] ∧
    (tFetchData (fun _ => true) tRecordsModel [22] (some "/cache") none false
        ⟨[], []⟩ =
      .error (.runtimeError ("Only subjects 1 to 24 (except 3 and 23) are" ++
        " available from public PhysioNet temazepam. Unknown subjects: 22"),
        ⟨⟨[], []⟩, []⟩)) ∧
    (∀ (net : String → Bool) (records : List TRecord) (subjects : List Int)
      (path setting : Option String) (forceUpdate : Bool) (fs0 : FS),
      (∀ u, net u = true) →
      setdiff1d subjects (records.map (fun r => r.subject)) = [] →
      resPairs (tFetchData net records subjects path setting forceUpdate fs0) =
        some (tPairsSpec records (data_path path setting) subjects)) := by
  refine ⟨by decide, by decide, ?_⟩
  intro net records subjects path setting forceUpdate fs0 hnet hvalid
  obtain ⟨st2, h⟩ := tLoop_pairs net records (data_path path setting)
    forceUpdate hnet subjects ⟨fs0, []⟩
  simp [tFetchData, hvalid, h, resPairs]

/-- Witness for C6, applying the general placebo-only conjunct at a
concrete two-subject request. -/
theorem claim6_temazepam_catalog_witness :
    resPairs (tFetchData (fun _ => true) tRecordsModel [0, 1] (some "/w") none
        false ⟨[], []⟩) =
      some (tPairsSpec tRecordsModel (data_path (some "/w") none) [0, 1]) :=
  claim6_temazepam_catalog.2.2 (fun _ => true) tRecordsModel [0, 1] (some "/w")
    none false ⟨[], []⟩ (fun _ => rfl) (by decide)

/-- C7: the two catalogs keep their own distinct validation policies.
Age: the loop stops at the first out-of-range subject with the assertion
failure and the state reached so far, whatever subjects follow (fail
fast; subjects already processed have been fetched).  Temazepam: the
whole request is validated up front, and whenever any requested subject
is unknown the call fails before any transport call with a single error
naming the complete sorted set of unknown subjects of the request
(batch report). -/
theorem claim7_validation_policies :
    (∀ (net : String → Bool) (records : List AgeRecord) (p : String)
      (forceUpdate : Bool) (s : Int) (rest : List Int) (st : St),
      ¬(0 ≤ s ∧ s ≤ 60) →
      ageFetchLoop net records p forceUpdate (s :: rest) st =
        .error (.assertionError, st)) ∧
    (∀ (net : String → Bool) (records : List TRecord) (subjects : List Int)
      (path setting : Option String) (forceUpdate : Bool) (fs0 : FS),
      setdiff1d subjects (records.map (fun r => r.subject)) ≠ [] →
      tFetchData net records subjects path setting forceUpdate fs0 =
        .error (.runtimeError (tMsg (setdiff1d subjects
          (records.map (fun r => r.subject)))), ⟨fs0, []⟩)) := by
  constructor
  · intro net records p forceUpdate s rest st h
    simp only [ageFetchLoop]
    rw [if_neg h]
  · intro net records subjects path setting forceUpdate fs0 h
    have hne : (setdiff1d subjects (records.map (fun r => r.subject))).isEmpty
        = false := by
      cases hs : setdiff1d subjects (records.map (fun r => r.subject)) with
      | nil => exact absurd hs h
      | cons a l => rfl
    simp [tFetchData, hne]

/-- Witness for C7: the age loop stops at the invalid subject 99 whatever
follows, and a temazepam request containing the unknown subject 22 fails
with the batch message, before any transport call. -/
theorem claim7_validation_policies_witness :
    ageFetchLoop (fun _ => true) ageRecordsModel "/c/physionet-sleep-data" false
        [99, 0] ⟨⟨[], []⟩, []⟩ =
      .error (.assertionError, ⟨⟨[], []⟩, []⟩) ∧
    tFetchData (fun _ => true) tRecordsModel [22, 0] (some "/w") none false
        ⟨[], []⟩ =
      .error (.runtimeError (tMsg (setdiff1d [22, 0]
        (tRecordsModel.map (fun r => r.subject)))), ⟨⟨[], []⟩, []⟩) :=
  ⟨claim7_validation_policies.1 (fun _ => true) ageRecordsModel
      "/c/physionet-sleep-data" false 99 [0] ⟨⟨[], []⟩, []⟩ (by decide),
   claim7_validation_policies.2 (fun _ => true) tRecordsModel [22, 0] (some "/w")
      none false ⟨[], []⟩ (by decide)⟩

/-- C9 counterexample: with an explicit path, data_path does ignore the
setting and the default, but it returns the explicit path with the fixed
dataset directory appended, not the explicit path itself as the claim
states. -/
theorem claim9_counterexample :
    data_path (some "/explicit") (some "/from-settings") =
      "/explicit/physionet-sleep-data" ∧
    data_path (some "/explicit") (some "/from-settings") ≠ "/explicit" := by
  exact ⟨by decide, by decide⟩

/-- C9 amended: with an explicit path the resolved cache root is the
explicit path itself, whatever the setting holds, and data_path returns
that root with the fixed dataset subdirectory appended. -/
theorem claim9_explicit_path_wins (p : String) (setting : Option String) :
    getPath (some p) setting = p ∧
    data_path (some p) setting = joinPath p "physionet-sleep-data" :=
  ⟨rfl, rfl⟩

/-- C8: a fetch_data request that resolves to N primary/annotation role
pairs on an empty cache issues exactly 2N transport calls, one per role
per pair, and the returned sequence lists the pairs in input subject
order: the age catalog yields one pair per subject in subject order, the
temazepam catalog the placebo pairs of each subject in order.  Stated
for succeeding downloads and pairwise distinct destinations (the catalog
guarantees unique filenames per the spec). -/
theorem claim8_call_count_and_order :
    (∀ (net : String → Bool) (records : List AgeRecord) (subjects : List Int)
      (path setting : Option String) (fs0 : FS),
      (∀ u, net u = true) →
      (∀ s ∈ subjects, 0 ≤ s ∧ s ≤ 60) →
      (∀ s ∈ subjects, (ageMatches records s).length = 2) →
      (ageDests records (data_path path setting) subjects).Nodup →
      fs0.files = [] →
      ∃ st2, ageFetchData net records subjects path setting false fs0 =
        .ok (agePairsSpec records (data_path path setting) subjects, st2) ∧
        st2.calls.length = 2 * subjects.length ∧
        (agePairsSpec records (data_path path setting) subjects).length =
          subjects.length) ∧
    (∀ (net : String → Bool) (records : List TRecord) (subjects : List Int)
      (path setting : Option String) (fs0 : FS),
      (∀ u, net u = true) →
      setdiff1d subjects (records.map (fun r => r.subject)) = [] →
      (tDests records (data_path path setting) subjects).Nodup →
      fs0.files = [] →
      ∃ st2, tFetchData net records subjects path setting false fs0 =
        .ok (tPairsSpec records (data_path path setting) subjects, st2) ∧
        st2.calls.length =
          2 * (tPairsSpec records (data_path path setting) subjects).length) := by
  constructor
  · intro net records subjects path setting fs0 hnet hsub hrows hnodup hempty
    obtain ⟨ds, h⟩ := ageLoop_ok net records (data_path path setting) subjects
      ⟨fs0, []⟩ hnet hsub hrows hnodup (by intro d hd; simp [hempty])
    refine ⟨_, h, ?_, ?_⟩
    · have hcl := ageCalls_len records (data_path path setting) subjects hrows
      simpa using hcl
    · simp [agePairsSpec]
  · intro net records subjects path setting fs0 hnet hvalid hnodup hempty
    obtain ⟨ds, h⟩ := tLoop_ok net records (data_path path setting) subjects
      ⟨fs0, []⟩ hnet hnodup (by intro d hd; simp [hempty])
    have hempty2 : (setdiff1d subjects
        (records.map (fun r => r.subject))).isEmpty = true := by
      rw [hvalid]
      rfl
    refine ⟨⟨⟨(tDests records (data_path path setting) subjects).reverse ++
        (⟨fs0, []⟩ : St).fs.files, ds⟩,
      (⟨fs0, []⟩ : St).calls ++
        tCallsSpec records (data_path path setting) subjects⟩, ?_, ?_⟩
    · simp only [tFetchData, hempty2, if_true]
      exact h
    · have hcl := tCalls_len records (data_path path setting) subjects
      simpa using hcl

/-- Witness for C8: concrete empty-cache runs of both catalogs, two
subjects each. -/
theorem claim8_call_count_and_order_witness :
    (∃ st2, ageFetchData (fun _ => true) ageRecordsModel [0, 1] (some "/cache")
        none false ⟨[], []⟩ =
      .ok (agePairsSpec ageRecordsModel (data_path (some "/cache") none) [0, 1],
        st2) ∧
      st2.calls.length = 2 * ([0, 1] : List Int).length ∧
      (agePairsSpec ageRecordsModel (data_path (some "/cache") none)
        [0, 1]).length = ([0, 1] : List Int).length) ∧
    (∃ st2, tFetchData (fun _ => true) tRecordsModel [0, 1] (some "/w") none
        false ⟨[], []⟩ =
      .ok (tPairsSpec tRecordsModel (data_path (some "/w") none) [0, 1], st2) ∧
      st2.calls.length =
        2 * (tPairsSpec tRecordsModel (data_path (some "/w") none)
          [0, 1]).length) :=
  ⟨claim8_call_count_and_order.1 (fun _ => true) ageRecordsModel [0, 1]
      (some "/cache") none ⟨[], []⟩ (fun _ => rfl) (by decide) (by decide)
      (by decide) rfl,
   claim8_call_count_and_order.2 (fun _ => true) tRecordsModel [0, 1]
      (some "/w") none ⟨[], []⟩ (fun _ => rfl) (by decide) (by decide) rfl⟩

/-- C10: the age fetch_data assumes every requested subject has exactly
two matching rows, taking the first matching row as the psg file and the
second as the hypnogram file; a subject within the asserted 0..60 range
whose row count differs from two makes the call fail with the untyped
unpacking error carrying the actual row count, and this happens after
the earlier subject of the request has already been fetched, its two
transport calls already issued. -/
theorem claim10_row_count_assumption :
    (∀ (net : String → Bool) (records : List AgeRecord)
      (path setting : Option String) (forceUpdate : Bool) (fs0 : FS)
      (s : Int) (r1 r2 : AgeRecord),
      (∀ u, net u = true) → 0 ≤ s → s ≤ 60 →
      ageMatches records s = [r1, r2] →
      resPairs (ageFetchData net records [s] path setting forceUpdate fs0) =
        some [(joinPath (data_path path setting) r1.fname,
               joinPath (data_path path setting) r2.fname)]) ∧
    (∀ (net : String → Bool) (records : List AgeRecord)
      (path setting : Option String) (fs0 : FS) (s0 s : Int) (r1 r2 : AgeRecord),
      (∀ u, net u = true) → fs0.files = [] →
      0 ≤ s0 → s0 ≤ 60 → ageMatches records s0 = [r1, r2] →
      joinPath (data_path path setting) r1.fname ≠
        joinPath (data_path path setting) r2.fname →
      0 ≤ s → s ≤ 60 → (ageMatches records s).length ≠ 2 →
      ∃ st2, ageFetchData net records [s0, s] path setting false fs0 =
        .error (.unpackError 2 (ageMatches records s).length, st2) ∧
        st2.calls.length = 2) := by
  constructor
  · intro net records path setting forceUpdate fs0 s r1 r2 hnet h0 h60 hm
    obtain ⟨st1, hf1⟩ := @fetchOne_ok_of_net net r1.fname r1.sha
      (data_path path setting) forceUpdate ⟨fs0, []⟩ (hnet _)
    obtain ⟨st2, hf2⟩ := @fetchOne_ok_of_net net r2.fname r2.sha
      (data_path path setting) forceUpdate st1 (hnet _)
    simp only [ageFetchData, ageFetchLoop]
    rw [if_pos ⟨h0, h60⟩, hm]
    simp only [hf1, hf2, ageFetchLoop]
    simp [resPairs]
  · intro net records path setting fs0 s0 s r1 r2 hnet hempty h00 h060 hm hne
      h0 h60 hk
    obtain ⟨ds1, hf1⟩ := @fetchOne_miss net r1.fname r1.sha
      (data_path path setting) ⟨fs0, []⟩
      ((isfile_eq_false_iff _ _).mpr (by simp [hempty])) (hnet _)
    obtain ⟨ds2, hf2⟩ := @fetchOne_miss net r2.fname r2.sha
      (data_path path setting)
      ⟨⟨joinPath (data_path path setting) r1.fname ::
          (⟨fs0, []⟩ : St).fs.files, ds1⟩,
       (⟨fs0, []⟩ : St).calls ++ [⟨BASE_URL ++ "/" ++ r1.fname,
         joinPath (data_path path setting) r1.fname, r1.sha⟩]⟩
      ((isfile_eq_false_iff _ _).mpr (by
        simp [hempty]
        intro hEq
        exact hne hEq.symm)) (hnet _)
    refine ⟨⟨⟨joinPath (data_path path setting) r2.fname ::
        joinPath (data_path path setting) r1.fname :: (⟨fs0, []⟩ : St).fs.files,
        ds2⟩,
      ((⟨fs0, []⟩ : St).calls ++ [⟨BASE_URL ++ "/" ++ r1.fname,
         joinPath (data_path path setting) r1.fname, r1.sha⟩]) ++
        [⟨BASE_URL ++ "/" ++ r2.fname,
          joinPath (data_path path setting) r2.fname, r2.sha⟩]⟩, ?_, ?_⟩
    · simp only [ageFetchData, ageFetchLoop]
      rw [if_pos ⟨h00, h060⟩, hm]
      simp only [hf1, hf2]
      rw [if_pos ⟨h0, h60⟩]
      rcases hms : ageMatches records s with _ | ⟨a, _ | ⟨b, _ | ⟨c, t⟩⟩⟩
      · rfl
      · rfl
      · exact absurd (by rw [hms]; rfl) hk
      · rfl
    · simp

/-- Witness for C10 on the modelled test catalog: subject 0 fetches its
pair, first row as psg and second as hypnogram, and the request [0, 5]
fails with the unpacking error for the three-row subject 5 after the two
transport calls for subject 0. -/
theorem claim10_row_count_assumption_witness :
    resPairs (ageFetchData (fun _ => true) claim10Records [0] (some "/c") none
        false ⟨[], []⟩) =
      some [("/c/physionet-sleep-data/A0.edf",
             "/c/physionet-sleep-data/B0.edf")] ∧
    ∃ st2, ageFetchData (fun _ => true) claim10Records [0, 5] (some "/c") none
        false ⟨[], []⟩ =
      .error (.unpackError 2 (ageMatches claim10Records 5).length, st2) ∧
      st2.calls.length = 2 :=
  ⟨claim10_row_count_assumption.1 (fun _ => true) claim10Records (some "/c")
      none false ⟨[], []⟩ 0 ⟨0, "A0.edf", "sa"⟩ ⟨0, "B0.edf", "sb"⟩
      (fun _ => rfl) (by decide) (by decide) (by decide),
   claim10_row_count_assumption.2 (fun _ => true) claim10Records (some "/c")
      none ⟨[], []⟩ 0 5 ⟨0, "A0.edf", "sa"⟩ ⟨0, "B0.edf", "sb"⟩
      (fun _ => rfl) rfl (by decide) (by decide) (by decide) (by decide)
      (by decide) (by decide) (by decide)⟩

end SleepPhysionet
